import Mathlib

/-!
Verification of the lightcycle simulation core (collision engine, AI decision
policy, grid motion math, and the game-state reducer) of the `quantizor/art`
repository.  Numeric code is embedded over exact rationals (JS `number`
arithmetic idealised as exact arithmetic); the single square-root call in the
AI controller is abstracted as an oracle parameter, and the angle-based motion
math is embedded over the reals.
-/

namespace Lightcycle

/-! ## Basic data model (`types.ts`, `constants.ts`) -/

/-- Source `GridPosition` from `types.ts`: a 2D point `{x, z}`. -/
structure GridPosition where
  x : ℚ
  z : ℚ
deriving DecidableEq

/-- Source `GridDirection` from `types.ts`. -/
inductive GridDirection where
  | north
  | east
  | south
  | west
deriving DecidableEq

/-- Source `TrailSegment` from `types.ts`. -/
structure TrailSegment where
  start : GridPosition
  stop : GridPosition
  direction : GridDirection
deriving DecidableEq

/-- Source `CycleState` from `types.ts` (color dropped; `angle` and `targetAngle`
kept as rationals, unused by the embedded functions below). -/
structure CycleState where
  id : String
  gridPosition : GridPosition
  direction : GridDirection
  angle : ℚ
  targetAngle : ℚ
  isTurning : Bool
  isAlive : Bool
  trail : List TrailSegment
  isPlayer : Bool
  speed : ℚ
  trailActive : Bool
  isJumping : Bool
  jumpStartTime : ℚ
  lastJumpTime : ℚ
deriving DecidableEq

/-- Source `ARENA_SIZE` from `constants.ts`. -/
def ARENA_SIZE : ℚ := 128

/-- Source `ARENA_HALF` from `constants.ts`. -/
def ARENA_HALF : ℚ := ARENA_SIZE / 2

/-- Source `TRAIL_WIDTH` from `constants.ts` (0.15). -/
def TRAIL_WIDTH : ℚ := 15 / 100

/-- Source `CYCLE_RADIUS` from `CollisionSystem.ts` (0.4). -/
def CYCLE_RADIUS : ℚ := 4 / 10

/-- Source `DIRECTION_VECTORS` from `constants.ts`. -/
def DIRECTION_VECTORS : GridDirection → GridPosition
  | .north => ⟨0, -1⟩
  | .south => ⟨0, 1⟩
  | .east => ⟨1, 0⟩
  | .west => ⟨-1, 0⟩

/-- Source `TURN_LEFT` from `constants.ts`. -/
def TURN_LEFT : GridDirection → GridDirection
  | .north => .west
  | .west => .south
  | .south => .east
  | .east => .north

/-- Source `TURN_RIGHT` from `constants.ts`. -/
def TURN_RIGHT : GridDirection → GridDirection
  | .north => .east
  | .east => .south
  | .south => .west
  | .west => .north

/-! ## Collision engine (`CollisionSystem.ts`) -/

/-- Hit kinds reported by the collision engine (`'wall' | 'trail' | 'cycle'`). -/
inductive HitType where
  | wall
  | trail
  | cycle
deriving DecidableEq

/-- Source `CollisionResult` from `types.ts`. -/
structure CollisionResult where
  collided : Bool
  type : Option HitType
  cycleId : Option String
deriving DecidableEq

/-- Source `checkWallCollision` from `CollisionSystem.ts`. -/
def checkWallCollision (position : GridPosition) : Bool :=
  let margin := CYCLE_RADIUS
  let limit := ARENA_HALF - margin
  decide (position.x < -limit) || decide (position.x > limit) ||
    decide (position.z < -limit) || decide (position.z > limit)

/-- Source `pointIntersectsSegment` from `CollisionSystem.ts`. -/
def pointIntersectsSegment (point : GridPosition) (segment : TrailSegment) : Bool :=
  let halfWidth := TRAIL_WIDTH / 2 + CYCLE_RADIUS
  let minX := min segment.start.x segment.stop.x - halfWidth
  let maxX := max segment.start.x segment.stop.x + halfWidth
  let minZ := min segment.start.z segment.stop.z - halfWidth
  let maxZ := max segment.start.z segment.stop.z + halfWidth
  decide (point.x ≥ minX) && decide (point.x ≤ maxX) &&
    decide (point.z ≥ minZ) && decide (point.z ≤ maxZ)

/-- Source `checkTrailCollision` from `CollisionSystem.ts`: for self-collision the
last 2 segments are dropped (`trail.slice(0, Math.max(0, trail.length - 2))`). -/
def checkTrailCollision (position : GridPosition) (trail : List TrailSegment)
    (self : Bool) : Bool :=
  let segmentsToCheck := if self then trail.take (trail.length - 2) else trail
  segmentsToCheck.any (fun segment => pointIntersectsSegment position segment)

/-- Source `checkCycleCollision` from `CollisionSystem.ts`. -/
def checkCycleCollision (a b : GridPosition) : Bool :=
  let dx := a.x - b.x
  let dz := a.z - b.z
  let distanceSquared := dx * dx + dz * dz
  let minDistance := CYCLE_RADIUS * 2
  decide (distanceSquared < minDistance * minDistance)

/-- Source `checkCollision` from `CollisionSystem.ts`: wall first, then the first
living cycle whose trail the point intersects, then the first other living
cycle within collision radius. -/
def checkCollision (position : GridPosition) (cycleId : String)
    (allCycles : List CycleState) : CollisionResult :=
  if checkWallCollision position then
    { collided := true, type := some .wall, cycleId := none }
  else
    match allCycles.find? (fun cycle =>
        cycle.isAlive &&
          checkTrailCollision position cycle.trail (decide (cycleId = cycle.id))) with
    | some cycle => { collided := true, type := some .trail, cycleId := some cycle.id }
    | none =>
      match allCycles.find? (fun cycle =>
          !(decide (cycle.id = cycleId)) && cycle.isAlive &&
            checkCycleCollision position cycle.gridPosition) with
      | some cycle => { collided := true, type := some .cycle, cycleId := some cycle.id }
      | none => { collided := false, type := none, cycleId := none }

/-- JS `d < minHitDistance` where `minHitDistance` may be `Infinity`
(`none` models `Infinity`). -/
def ltInf (d : ℚ) : Option ℚ → Bool
  | none => true
  | some q => decide (d < q)

/-- JS `Math.min(m, q)` where `m` may be `Infinity` and `q` is finite. -/
def minInf (m : Option ℚ) (q : ℚ) : ℚ :=
  match m with
  | none => q
  | some p => min p q

/-- Source `raycastWall` from `CollisionSystem.ts`: exact analytic distance to the
inset wall along the ray; `none` models the `Infinity` result when both
directional components are zero. -/
def raycastWall (position direction : GridPosition) : Option ℚ :=
  let margin := CYCLE_RADIUS
  let m0 : Option ℚ := none
  let m1 : Option ℚ :=
    if direction.x > 0 then
      some (minInf m0 ((ARENA_HALF - margin - position.x) / direction.x))
    else if direction.x < 0 then
      some (minInf m0 ((-ARENA_HALF + margin - position.x) / direction.x))
    else m0
  if direction.z > 0 then
    some (minInf m1 ((ARENA_HALF - margin - position.z) / direction.z))
  else if direction.z < 0 then
    some (minInf m1 ((-ARENA_HALF + margin - position.z) / direction.z))
  else m1

/-- The per-cycle trail visible to `raycast`: the caster's own 3 most recent
segments are dropped (`cycle.trail.slice(0, Math.max(0, cycle.trail.length - 3))`). -/
def raycastTrailFor (selfId : String) (cycle : CycleState) : List TrailSegment :=
  if cycle.id = selfId then cycle.trail.take (cycle.trail.length - 3) else cycle.trail

/-- One iteration of the `raycast` step-march at parameter `d`: scans every
living cycle, first its (self-filtered) trail segments, then its position,
updating the running minimum-hit accumulator exactly as the source loop does. -/
def raycastStep (allCycles : List CycleState) (selfId : String)
    (position direction : GridPosition) (d : ℚ)
    (acc : Option ℚ × Option HitType) : Option ℚ × Option HitType :=
  let testPos : GridPosition :=
    ⟨position.x + direction.x * d, position.z + direction.z * d⟩
  allCycles.foldl (fun acc cycle =>
    if !cycle.isAlive then acc
    else
      let acc1 := (raycastTrailFor selfId cycle).foldl (fun acc segment =>
        if pointIntersectsSegment testPos segment then
          if ltInf d acc.1 then (some d, some HitType.trail) else acc
        else acc) acc
      if cycle.id ≠ selfId then
        let dx := testPos.x - cycle.gridPosition.x
        let dz := testPos.z - cycle.gridPosition.z
        if dx * dx + dz * dz < CYCLE_RADIUS * CYCLE_RADIUS * 4 then
          if ltInf d acc1.1 then (some d, some HitType.cycle) else acc1
        else acc1
      else acc1) acc

/-- The `for (let d = step; d <= maxDistance && d < minHitDistance; d += step)`
loop of `raycast`; `k` counts steps (`d = k · 0.5`) and the fuel argument is a
strict upper bound on the number of remaining iterations, chosen so that the
loop always exits through its own guard. -/
def raycastLoop (allCycles : List CycleState) (selfId : String)
    (position direction : GridPosition) (maxDistance : ℚ) :
    ℕ → ℕ → Option ℚ × Option HitType → Option ℚ × Option HitType
  | 0, _, acc => acc
  | fuel + 1, k, acc =>
    let d := (k : ℚ) / 2
    if decide (d ≤ maxDistance) && ltInf d acc.1 then
      raycastLoop allCycles selfId position direction maxDistance fuel (k + 1)
        (raycastStep allCycles selfId position direction d acc)
    else acc

/-- Result record of `raycast`. -/
structure RaycastResult where
  distance : ℚ
  type : Option HitType
deriving DecidableEq

/-- Source `raycast` from `CollisionSystem.ts`: seeds the accumulator with the
analytic wall distance, marches in 0.5 steps looking for trail/cycle hits, and
reports the minimum clamped to `maxDistance`. -/
def raycast (position direction : GridPosition) (maxDistance : ℚ)
    (allCycles : List CycleState) (selfId : String) : RaycastResult :=
  let wallDist := raycastWall position direction
  let init : Option ℚ × Option HitType :=
    match wallDist with
    | some w => (some w, some HitType.wall)
    | none => (none, none)
  let fuel := (⌈2 * maxDistance⌉).toNat + 1
  let final := raycastLoop allCycles selfId position direction maxDistance fuel 1 init
  { distance := minInf final.1 maxDistance, type := final.2 }

/-! ## AI controller (`AIController.ts`)

The single `Math.sqrt` call (`distanceToSegment`) is abstracted as an oracle
parameter `sq`; the up-to-three `Math.random()` draws and the one
`performance.now()` read of a `getDecision` call are passed in as explicit
rational parameters (they are free nondeterministic inputs of the source). -/

/-- Source `AI_CONFIG` from `constants.ts`. -/
structure AIConfig where
  lookAheadDistance : ℚ
  minTurnDistance : ℚ
  randomFactor : ℚ
  decisionInterval : ℚ

/-- The `AI_CONFIG` values: look-ahead 25, min turn distance 4, random factor
0.15, decision interval 60 ms. -/
def AI_CONFIG : AIConfig :=
  { lookAheadDistance := 25, minTurnDistance := 4, randomFactor := 15 / 100,
    decisionInterval := 60 }

/-- The `turn` field of `AIDecision` (`'left' | 'right' | 'none'`). -/
inductive Turn where
  | left
  | right
  | none
deriving DecidableEq

/-- Source `AIDecision` from `AIController.ts`. -/
structure AIDecision where
  turn : Turn
  urgency : ℚ
  jump : Bool
deriving DecidableEq

/-- Source `DirectionScore` from `AIController.ts`. -/
structure DirectionScore where
  direction : GridDirection
  turn : Turn
  forwardDistance : ℚ
  escapePaths : ℕ
  selfTrailDanger : ℚ
  totalScore : ℚ
deriving DecidableEq

/-- Source `distanceToSegment` from `AIController.ts`; `sq` is the `Math.sqrt`
oracle, applied to the squared distance exactly where the source calls it. -/
def distanceToSegment (sq : ℚ → ℚ) (point : GridPosition)
    (segment : TrailSegment) : ℚ :=
  let dx := segment.stop.x - segment.start.x
  let dz := segment.stop.z - segment.start.z
  let lenSq := dx * dx + dz * dz
  if lenSq = 0 then
    sq ((point.x - segment.start.x) ^ 2 + (point.z - segment.start.z) ^ 2)
  else
    let t := max 0 (min 1
      (((point.x - segment.start.x) * dx + (point.z - segment.start.z) * dz) / lenSq))
    let closestX := segment.start.x + t * dx
    let closestZ := segment.start.z + t * dz
    sq ((point.x - closestX) ^ 2 + (point.z - closestZ) ^ 2)

/-- Source `countEscapePaths` from `AIController.ts`: project 8 units along the
candidate direction and count the cardinal raycasts (max distance 15) that
clear at least 8 units. -/
def countEscapePaths (cycle : CycleState) (primaryDir : GridDirection)
    (allCycles : List CycleState) : ℕ :=
  let vector := DIRECTION_VECTORS primaryDir
  let futurePos : GridPosition :=
    ⟨cycle.gridPosition.x + vector.x * 8, cycle.gridPosition.z + vector.z * 8⟩
  [GridDirection.north, .east, .south, .west].foldl (fun openPaths dir =>
    let checkVector := DIRECTION_VECTORS dir
    let hit := raycast futurePos checkVector 15 allCycles cycle.id
    if hit.distance ≥ 8 then openPaths + 1 else openPaths) 0

/-- Source `evaluateSelfTrailDanger` from `AIController.ts`: early 0 for trails
shorter than 3 segments, then sampled point-to-old-trail penalties plus side
raycast penalties. -/
def evaluateSelfTrailDanger (sq : ℚ → ℚ) (cycle : CycleState)
    (direction : GridDirection) (allCycles : List CycleState) : ℚ :=
  if cycle.trail.length < 3 then 0
  else
    let vector := DIRECTION_VECTORS direction
    let danger1 := ([5, 10, 15, 20] : List ℚ).foldl (fun danger dist =>
      let checkPos : GridPosition :=
        ⟨cycle.gridPosition.x + vector.x * dist, cycle.gridPosition.z + vector.z * dist⟩
      let oldTrail := cycle.trail.take (cycle.trail.length - 4)
      oldTrail.foldl (fun danger segment =>
        let distToSegment := distanceToSegment sq checkPos segment
        if distToSegment < 3 then danger - (10 - distToSegment * 2) else danger)
        danger) 0
    [TURN_LEFT direction, TURN_RIGHT direction].foldl (fun danger sideDir =>
      let sideVector := DIRECTION_VECTORS sideDir
      let sideHit := raycast cycle.gridPosition sideVector 10 allCycles cycle.id
      if sideHit.distance < 5 ∧ sideHit.type = some HitType.trail then danger - 5
      else danger) danger1

/-- Source `evaluateAllDirections` from `AIController.ts`: score the three candidate
maneuvers (continue, turn-left, turn-right). -/
def evaluateAllDirections (sq : ℚ → ℚ) (cycle : CycleState)
    (allCycles : List CycleState) : List DirectionScore :=
  let candidates : List (GridDirection × Turn) :=
    [(cycle.direction, Turn.none), (TURN_LEFT cycle.direction, Turn.left),
      (TURN_RIGHT cycle.direction, Turn.right)]
  candidates.map (fun c =>
    let dir := c.1
    let vector := DIRECTION_VECTORS dir
    let forwardHit := raycast cycle.gridPosition vector
      (AI_CONFIG.lookAheadDistance * 2) allCycles cycle.id
    let escapePaths := countEscapePaths cycle dir allCycles
    let selfTrailDanger := evaluateSelfTrailDanger sq cycle dir allCycles
    let totalScore :=
      forwardHit.distance * 2 + (escapePaths : ℚ) * 8 + selfTrailDanger * 1
    { direction := dir, turn := c.2, forwardDistance := forwardHit.distance,
      escapePaths := escapePaths, selfTrailDanger := selfTrailDanger,
      totalScore := totalScore })

/-- Insert into a descending-by-score list, after any equal scores: this is
the stable descending order produced by `scores.sort((a, b) => b.totalScore -
a.totalScore)`. -/
def insertScore (x : DirectionScore) : List DirectionScore → List DirectionScore
  | [] => [x]
  | y :: ys =>
    if x.totalScore > y.totalScore then x :: y :: ys else y :: insertScore x ys

/-- Stable descending sort by `totalScore` (JS `Array.prototype.sort` with the
comparator above is stable). -/
def sortScores (l : List DirectionScore) : List DirectionScore :=
  l.foldr insertScore []

/-- Placeholder used where the source relies on the array being nonempty
(`scores[0]`, `scores.find(...)!`); never reached on the actual 3-element
candidate list. -/
def defaultDirectionScore : DirectionScore :=
  ⟨GridDirection.north, Turn.none, 0, 0, 0, 0⟩

/-- Source `shouldJump` from `AIController.ts`; `rEmergency` is the `Math.random()`
draw of the emergency branch and `perfNow` the `performance.now()` reading. -/
def shouldJump (rEmergency perfNow : ℚ) (cycle : CycleState)
    (allCycles : List CycleState) (forwardDistance : ℚ) : Bool :=
  if cycle.isJumping then false
  else if perfNow - cycle.lastJumpTime < 2000 then false
  else
    let forwardVector := DIRECTION_VECTORS cycle.direction
    let jumpOverTrail : Bool :=
      if 3 < forwardDistance ∧ forwardDistance < 12 then
        let hit := raycast cycle.gridPosition forwardVector 12 allCycles cycle.id
        decide (hit.type = some HitType.trail) && decide (3 < hit.distance) &&
          decide (hit.distance < 10)
      else false
    if jumpOverTrail then true
    else if forwardDistance < 4 then decide (rEmergency < 4 / 10) else false

/-- Source `getDecision` from `AIController.ts`.  The per-agent last-decision map is
modelled as a total function `String → ℚ` (the source reads it with
`this.lastDecisionTime.get(cycle.id) || 0`, so an absent entry equals 0); the
updated map is returned alongside the decision.  `rDesperate` and `rStrategic`
are the `Math.random()` draws of the desperate-turn and strategic-jump
branches. -/
def getDecision (sq : ℚ → ℚ) (rEmergency rDesperate rStrategic perfNow : ℚ)
    (cycle : CycleState) (allCycles : List CycleState) (currentTime : ℚ)
    (lastDecisionTime : String → ℚ) : AIDecision × (String → ℚ) :=
  let lastDecision := lastDecisionTime cycle.id
  if currentTime - lastDecision < AI_CONFIG.decisionInterval then
    (⟨Turn.none, 0, false⟩, lastDecisionTime)
  else
    let scores := sortScores (evaluateAllDirections sq cycle allCycles)
    let bestOption := scores.headD defaultDirectionScore
    let forwardOption :=
      (scores.find? (fun s => decide (s.turn = Turn.none))).getD defaultDirectionScore
    let doJump := shouldJump rEmergency perfNow cycle allCycles
      forwardOption.forwardDistance
    let committed : String → ℚ :=
      fun id => if id = cycle.id then currentTime else lastDecisionTime id
    if forwardOption.forwardDistance < AI_CONFIG.minTurnDistance then
      if doJump && !cycle.isJumping then (⟨Turn.none, 1, true⟩, committed)
      else
        match scores.filter (fun s => decide ¬s.turn = Turn.none) with
        | t :: _ => (⟨t.turn, 1, false⟩, committed)
        | [] =>
          (⟨if rDesperate < 1 / 2 then Turn.left else Turn.right, 1, false⟩, committed)
    else
      let scoreDiff := bestOption.totalScore - forwardOption.totalScore
      if ¬bestOption.turn = Turn.none ∧ scoreDiff > 8 then
        (⟨bestOption.turn, 7 / 10, false⟩, committed)
      else
        match (if forwardOption.escapePaths < 2 ∧ forwardOption.forwardDistance < 20
            then scores.find? (fun s =>
              decide (¬s.turn = Turn.none ∧ forwardOption.escapePaths < s.escapePaths))
            else none) with
        | some betterOption => (⟨betterOption.turn, 6 / 10, false⟩, committed)
        | none =>
          if forwardOption.forwardDistance < AI_CONFIG.lookAheadDistance * (1 / 2) ∧
              ¬bestOption.turn = Turn.none ∧ scoreDiff > 3 then
            (⟨bestOption.turn, 1 / 2, false⟩, committed)
          else if doJump && !cycle.isJumping && decide (rStrategic < 1 / 5) then
            (⟨Turn.none, 3 / 10, true⟩, committed)
          else (⟨Turn.none, 0, false⟩, lastDecisionTime)

/-! ## Grid motion math (`GridSystem.ts`), over the reals -/

/-- A 2D point with real coordinates, for the angle-based motion functions. -/
structure RealPosition where
  x : ℝ
  z : ℝ

/-- Source `DIRECTION_VECTORS` from `constants.ts` with real coordinates. -/
def DIRECTION_VECTORS_R : GridDirection → RealPosition
  | .north => ⟨0, -1⟩
  | .south => ⟨0, 1⟩
  | .east => ⟨1, 0⟩
  | .west => ⟨-1, 0⟩

/-- Source `DIRECTION_TO_ANGLE` from `constants.ts`: north 0, east π/2, south π,
west -π/2. -/
noncomputable def DIRECTION_TO_ANGLE : GridDirection → ℝ
  | .north => 0
  | .east => Real.pi / 2
  | .south => Real.pi
  | .west => -(Real.pi / 2)

/-- Source `GridSystem.moveForward`: displace a position along a cardinal direction
vector. -/
def moveForward (position : RealPosition) (direction : GridDirection)
    (distance : ℝ) : RealPosition :=
  let vector := DIRECTION_VECTORS_R direction
  ⟨position.x + vector.x * distance, position.z + vector.z * distance⟩

/-- Source `GridSystem.moveForwardAngle`: displace a position along a continuous
angle (Three.js convention: 0 points −Z, clockwise positive). -/
noncomputable def moveForwardAngle (position : RealPosition) (angle distance : ℝ) :
    RealPosition :=
  ⟨position.x + Real.sin angle * distance, position.z - Real.cos angle * distance⟩

/-! ## Game state machine (`gameReducer` in the state-context module) -/

/-- Source `GamePhase` from `types.ts`. -/
inductive GamePhase where
  | menu
  | countdown
  | playing
  | paused
  | gameOver
deriving DecidableEq

/-- Source `CameraMode` from `types.ts`. -/
inductive CameraMode where
  | firstPerson
  | thirdPerson
  | topDown
deriving DecidableEq

/-- Source `GameState` from `types.ts`; the `scores` record (JS object id → score) is
modelled as an association list. -/
structure GameState where
  phase : GamePhase
  cycles : List CycleState
  cameraMode : CameraMode
  countdown : ℤ
  winner : Option String
  round : ℕ
  scores : List (String × ℕ)
  isNPCMode : Bool
deriving DecidableEq

/-- JS `scores[id]` on the association-list model (`none` = `undefined`). -/
def scoreLookup (scores : List (String × ℕ)) (id : String) : Option ℕ :=
  (scores.find? (fun p => decide (p.1 = id))).map (fun p => p.2)

/-- JS `newScores[id]++` on the association-list model. -/
def incrementScore (scores : List (String × ℕ)) (id : String) :
    List (String × ℕ) :=
  scores.map (fun p => if p.1 = id then (p.1, p.2 + 1) else p)

/-- The `KILL_CYCLE` case of `gameReducer`: mark the cycle dead; if at most
one cycle remains alive, end the round, record the sole survivor (or `none`)
as winner, and increment the winner's score when its id is a truthy key of the
scores record (`winnerId && newScores[winnerId] !== undefined`). -/
def killCycle (state : GameState) (cycleId : String) : GameState :=
  let updatedCycles := state.cycles.map (fun cycle =>
    if cycle.id = cycleId then { cycle with isAlive := false } else cycle)
  let aliveCycles := updatedCycles.filter (fun c => c.isAlive)
  if aliveCycles.length ≤ 1 then
    let winnerId : Option String :=
      match aliveCycles with
      | [c] => some c.id
      | _ => none
    let newScores :=
      match winnerId with
      | some w =>
        if w ≠ "" ∧ (scoreLookup state.scores w).isSome then
          incrementScore state.scores w
        else state.scores
      | none => state.scores
    { state with
        cycles := updatedCycles, phase := GamePhase.gameOver,
        winner := winnerId, scores := newScores }
  else { state with cycles := updatedCycles }

/-! ## Concrete fixtures and helper lemmas -/

/-- A minimal cycle record for concrete test states (mirrors the helper used
by the repository's own collision tests). -/
def mkCycle (id : String) (pos : GridPosition) (dir : GridDirection)
    (alive : Bool) (trail : List TrailSegment) : CycleState :=
  { id := id, gridPosition := pos, direction := dir, angle := 0,
    targetAngle := -1, isTurning := false, isAlive := alive, trail := trail,
    isPlayer := false, speed := 1, trailActive := true, isJumping := false,
    jumpStartTime := 0, lastJumpTime := 0 }

theorem find?_over_filter {α : Type} (q p : α → Bool) (l : List α) :
    (l.filter q).find? p = l.find? (fun x => q x && p x) := by
  induction l with
  | nil => rfl
  | cons x xs ih =>
    by_cases hx : q x = true
    · by_cases hp : p x = true
      · simp [List.filter_cons, hx, List.find?_cons, hp]
      · simp only [Bool.not_eq_true] at hp
        simp [List.filter_cons, hx, List.find?_cons, hp, ih]
    · simp only [Bool.not_eq_true] at hx
      simp [List.filter_cons, hx, List.find?_cons, ih]

/-! ## Theorems -/

/-- C1, counterexample: the point `(0, 5)` lies on the committed trail of the
dead cycle `b` (its `isAlive` is `false`), yet `checkCollision` for cycle `a`
reports no collision at all — the code skips dead cycles when checking
trails, so a dead agent's trail is not a live hazard. -/
theorem checkCollision_ignores_dead_trail :
    (mkCycle "b" ⟨30, 30⟩ .east false [⟨⟨-5, 5⟩, ⟨5, 5⟩, .east⟩]).isAlive = false ∧
      pointIntersectsSegment ⟨0, 5⟩ ⟨⟨-5, 5⟩, ⟨5, 5⟩, .east⟩ = true ∧
      checkCollision ⟨0, 5⟩ "a"
          [mkCycle "a" ⟨0, 0⟩ .north true [],
            mkCycle "b" ⟨30, 30⟩ .east false [⟨⟨-5, 5⟩, ⟨5, 5⟩, .east⟩]] =
        { collided := false, type := none, cycleId := none } := by
  refine ⟨rfl, by with_unfolding_all decide, by with_unfolding_all decide⟩

/-- C1, amended: `checkCollision` treats agents whose `isAlive` flag is false
as wholly invisible — its result on any agent list equals its result on the
list with all dead agents removed, so a dead agent's committed trail (and its
body) is not a hazard for anyone. -/
theorem checkCollision_ignores_dead_agents :
    ∀ (position : GridPosition) (cycleId : String) (allCycles : List CycleState),
      checkCollision position cycleId allCycles =
        checkCollision position cycleId
          (allCycles.filter (fun c => c.isAlive)) := by
  intro position cycleId allCycles
  have h1 : (fun c : CycleState => c.isAlive &&
      (c.isAlive && checkTrailCollision position c.trail (decide (cycleId = c.id)))) =
      (fun c : CycleState => c.isAlive &&
        checkTrailCollision position c.trail (decide (cycleId = c.id))) := by
    funext c
    cases c.isAlive <;> simp
  have h2 : (fun c : CycleState => c.isAlive &&
      (!decide (c.id = cycleId) && c.isAlive &&
        checkCycleCollision position c.gridPosition)) =
      (fun c : CycleState => !decide (c.id = cycleId) && c.isAlive &&
        checkCycleCollision position c.gridPosition) := by
    funext c
    cases c.isAlive <;> cases hq : decide (c.id = cycleId) <;> simp
  simp only [checkCollision, find?_over_filter, h1, h2]

/-- C2, counterexample: at center distance exactly 0.8 (squared distance
exactly `(2·radius)²`), `checkCycleCollision` returns `false`, contradicting
the claim that distance 0.8 collides. -/
theorem checkCycleCollision_false_at_exact_diameter :
    checkCycleCollision ⟨0, 0⟩ ⟨4 / 5, 0⟩ = false ∧
      ((4 : ℚ) / 5 - 0) * (4 / 5 - 0) + (0 - 0) * (0 - 0) =
        (2 * CYCLE_RADIUS) * (2 * CYCLE_RADIUS) := by
  constructor
  · with_unfolding_all decide
  · norm_num [CYCLE_RADIUS]

/-- C2, amended: `checkCycleCollision` returns `true` iff the squared center
distance is strictly below `(2·radius)²` (radius 0.4); hence distance exactly
0.8 does not collide, distance 1.0 does not collide, and identical positions
always collide. -/
theorem checkCycleCollision_strict_iff :
    (∀ a b : GridPosition, checkCycleCollision a b = true ↔
        (a.x - b.x) * (a.x - b.x) + (a.z - b.z) * (a.z - b.z) <
          (2 * CYCLE_RADIUS) * (2 * CYCLE_RADIUS)) ∧
      checkCycleCollision ⟨0, 0⟩ ⟨1, 0⟩ = false ∧
      (∀ p : GridPosition, checkCycleCollision p p = true) := by
  refine ⟨fun a b => ?_, by with_unfolding_all decide, fun p => ?_⟩
  · rw [show (2 * CYCLE_RADIUS) * (2 * CYCLE_RADIUS) =
        (CYCLE_RADIUS * 2) * (CYCLE_RADIUS * 2) by ring]
    simp [checkCycleCollision]
  · simp only [checkCycleCollision, decide_eq_true_eq]
    norm_num [CYCLE_RADIUS]

/-- C3, counterexample: a point whose x-coordinate is exactly at the inset
boundary `ARENA_HALF - margin = 63.6` does not collide (the source comparisons
are strict), contradicting the claim that a coordinate at the inset boundary
collides. -/
theorem checkWallCollision_false_at_boundary :
    checkWallCollision ⟨ARENA_HALF - CYCLE_RADIUS, 0⟩ = false := by
  with_unfolding_all decide

/-- C3, amended: `checkWallCollision` returns `true` iff some coordinate is
strictly beyond the inset boundary `±(ARENA_HALF - margin)` (so every point
with both coordinates in the closed inset square, boundary included, is
collision-free); in particular `(63.7, 0)` collides and `(50, 50)` does
not. -/
theorem checkWallCollision_characterization :
    (∀ p : GridPosition, checkWallCollision p = true ↔
        (p.x < -(ARENA_HALF - CYCLE_RADIUS) ∨ p.x > ARENA_HALF - CYCLE_RADIUS ∨
          p.z < -(ARENA_HALF - CYCLE_RADIUS) ∨ p.z > ARENA_HALF - CYCLE_RADIUS)) ∧
      checkWallCollision ⟨637 / 10, 0⟩ = true ∧
      checkWallCollision ⟨50, 50⟩ = false := by
  refine ⟨fun p => ?_, by with_unfolding_all decide, by with_unfolding_all decide⟩
  simp [checkWallCollision, or_assoc]

theorem killCycle_cycles (state : GameState) (cycleId : String) :
    (killCycle state cycleId).cycles =
      state.cycles.map (fun cycle =>
        if cycle.id = cycleId then { cycle with isAlive := false } else cycle) := by
  simp only [killCycle]
  split <;> rfl

theorem scoreLookup_incrementScore (scores : List (String × ℕ)) (id : String) :
    scoreLookup (incrementScore scores id) id =
      (scoreLookup scores id).map (fun n => n + 1) := by
  induction scores with
  | nil => rfl
  | cons p ps ih =>
    by_cases hp : p.1 = id
    · simp [incrementScore, scoreLookup, List.find?_cons, hp]
    · have hd : (decide (p.1 = id)) = false := by simp [hp]
      simp only [incrementScore, scoreLookup, List.map_cons, List.find?_cons,
        if_neg hp, hd] at ih ⊢
      simpa using ih

/-- C4: dispatching `killCycle` from a `playing` state: if exactly one living
agent remains afterwards the phase becomes `gameOver`, the winner is that
survivor's id, and the survivor's score (when its non-empty id has a score
entry) increases by exactly 1; if zero living agents remain the winner is
`null` and the scores are untouched; if two or more remain the phase stays
`playing`. -/
theorem killCycle_end_of_round :
    ∀ (state : GameState) (cycleId : String),
      state.phase = GamePhase.playing →
      (∀ c1 : CycleState,
          ((killCycle state cycleId).cycles.filter (fun c => c.isAlive)) = [c1] →
          (killCycle state cycleId).phase = GamePhase.gameOver ∧
          (killCycle state cycleId).winner = some c1.id ∧
          (c1.id ≠ "" → ∀ n : ℕ, scoreLookup state.scores c1.id = some n →
            scoreLookup (killCycle state cycleId).scores c1.id = some (n + 1))) ∧
      (((killCycle state cycleId).cycles.filter (fun c => c.isAlive)) = [] →
          (killCycle state cycleId).phase = GamePhase.gameOver ∧
          (killCycle state cycleId).winner = none ∧
          (killCycle state cycleId).scores = state.scores) ∧
      (2 ≤ ((killCycle state cycleId).cycles.filter (fun c => c.isAlive)).length →
          (killCycle state cycleId).phase = GamePhase.playing) := by
  intro state cycleId hphase
  have hc := killCycle_cycles state cycleId
  refine ⟨?_, ?_, ?_⟩
  · intro c1 h1
    rw [hc] at h1
    have hsome : c1.id ≠ "" → (scoreLookup state.scores c1.id).isSome = true →
        (∀ n : ℕ, scoreLookup state.scores c1.id = some n →
          scoreLookup (if c1.id ≠ "" ∧ (scoreLookup state.scores c1.id).isSome = true
              then incrementScore state.scores c1.id else state.scores) c1.id =
            some (n + 1)) := by
      intro hid hs n hn
      rw [if_pos (And.intro hid hs), scoreLookup_incrementScore, hn]
      rfl
    refine ⟨?_, ?_, ?_⟩
    · simp [killCycle, h1]
    · simp [killCycle, h1]
    · intro hid n hn
      have hs : (scoreLookup state.scores c1.id).isSome = true := by
        rw [hn]; rfl
      have := hsome hid hs n hn
      simp [killCycle, h1]
      rw [if_pos (And.intro hid hs)] at this ⊢
      · rw [scoreLookup_incrementScore, hn]; rfl
  · intro h0
    rw [hc] at h0
    refine ⟨?_, ?_, ?_⟩ <;> simp [killCycle, h0]
  · intro h2
    rw [hc] at h2
    have hcond : ¬ (List.filter (fun c => c.isAlive)
        (state.cycles.map (fun cycle =>
          if cycle.id = cycleId then { cycle with isAlive := false }
          else cycle))).length ≤ 1 := by
      omega
    simp only [killCycle, if_neg hcond]
    exact hphase

/-- C4 witness: in a two-cycle playing state, killing cycle `b` leaves the
single survivor `a`, ends the round with winner `a`, and bumps `a`'s score
from 0 to 1. -/
theorem killCycle_end_of_round_witness :
    (let st : GameState :=
      { phase := GamePhase.playing,
        cycles := [mkCycle "a" ⟨0, 0⟩ .north true [],
          mkCycle "b" ⟨10, 10⟩ .north true []],
        cameraMode := CameraMode.thirdPerson, countdown := 0, winner := none,
        round := 1, scores := [("a", 0), ("b", 0)], isNPCMode := true }
     (killCycle st "b").phase = GamePhase.gameOver ∧
       (killCycle st "b").winner = some "a" ∧
       scoreLookup (killCycle st "b").scores "a" = some 1) := by
  intro st
  have h := killCycle_end_of_round st "b" rfl
  have h1 := h.1 (mkCycle "a" ⟨0, 0⟩ .north true [])
    (by with_unfolding_all decide)
  refine ⟨h1.1, h1.2.1, ?_⟩
  exact h1.2.2 (by with_unfolding_all decide) 0 rfl

theorem any_take_iff {α : Type} (p : α → Bool) :
    ∀ (l : List α) (n : ℕ),
      ((l.take n).any p = true ↔
        ∃ (i : ℕ) (x : α), i < n ∧ l.get? i = some x ∧ p x = true)
  | [], n => by simp
  | x :: xs, 0 => by simp
  | x :: xs, n + 1 => by
    simp only [List.take_succ_cons, List.any_cons, Bool.or_eq_true]
    constructor
    · rintro (hx | h)
      · exact ⟨0, x, Nat.succ_pos _, rfl, hx⟩
      · obtain ⟨i, y, hi, hg, hp⟩ := (any_take_iff p xs n).1 h
        exact ⟨i + 1, y, Nat.succ_lt_succ hi, hg, hp⟩
    · rintro ⟨i, y, hi, hg, hp⟩
      match i, hg with
      | 0, hg =>
        left
        cases hg
        exact hp
      | i + 1, hg =>
        right
        exact (any_take_iff p xs n).2 ⟨i, y, Nat.lt_of_succ_lt_succ hi, hg, hp⟩

theorem get?_take_eq_some {α : Type} :
    ∀ (l : List α) (n i : ℕ) (x : α),
      ((l.take n).get? i = some x ↔ i < n ∧ l.get? i = some x)
  | [], n, i, x => by simp
  | y :: ys, 0, i, x => by simp
  | y :: ys, n + 1, 0, x => by simp [Nat.succ_pos]
  | y :: ys, n + 1, i + 1, x => by
    simp only [List.take_succ_cons, List.get?_cons_succ]
    rw [get?_take_eq_some ys n i x]
    exact and_congr_left (fun _ => by omega)


/-- C6: point-vs-trail collision skips exactly the 2 most recent segments of
the agent's own trail (an index is checked iff it is older than the last two)
and skips none of another agent's trail, while the raycast's view of the
caster's own trail drops exactly the 3 most recent segments and leaves other
agents' trails whole. -/
theorem trail_skip_counts :
    (∀ (position : GridPosition) (trail : List TrailSegment),
      (checkTrailCollision position trail true = true ↔
        ∃ (i : ℕ) (seg : TrailSegment), i + 2 < trail.length ∧
          trail.get? i = some seg ∧ pointIntersectsSegment position seg = true)) ∧
    (∀ (position : GridPosition) (trail : List TrailSegment),
      (checkTrailCollision position trail false = true ↔
        ∃ (i : ℕ) (seg : TrailSegment),
          trail.get? i = some seg ∧ pointIntersectsSegment position seg = true)) ∧
    (∀ (selfId : String) (cycle : CycleState),
      (cycle.id = selfId →
        ∀ (i : ℕ) (seg : TrailSegment),
          ((raycastTrailFor selfId cycle).get? i = some seg ↔
            i + 3 < cycle.trail.length ∧ cycle.trail.get? i = some seg)) ∧
      (¬cycle.id = selfId → raycastTrailFor selfId cycle = cycle.trail)) := by
  refine ⟨fun position trail => ?_, fun position trail => ?_,
    fun selfId cycle => ⟨fun hself i seg => ?_, fun hother => ?_⟩⟩
  · have h : checkTrailCollision position trail true =
        (trail.take (trail.length - 2)).any
          (fun segment => pointIntersectsSegment position segment) := rfl
    rw [h, any_take_iff]
    constructor
    · rintro ⟨i, seg, hi, hg, hp⟩
      exact ⟨i, seg, by omega, hg, hp⟩
    · rintro ⟨i, seg, hi, hg, hp⟩
      exact ⟨i, seg, by omega, hg, hp⟩
  · have h : checkTrailCollision position trail false =
        trail.any (fun segment => pointIntersectsSegment position segment) := rfl
    rw [h]
    have h2 := any_take_iff (fun segment => pointIntersectsSegment position segment)
      trail trail.length
    rw [List.take_length] at h2
    rw [h2]
    constructor
    · rintro ⟨i, seg, _, hg, hp⟩
      exact ⟨i, seg, hg, hp⟩
    · rintro ⟨i, seg, hg, hp⟩
      have hi : i < trail.length := by
        by_contra hge
        rw [List.get?_eq_none.2 (by omega)] at hg
        cases hg
      exact ⟨i, seg, hi, hg, hp⟩
  · rw [show raycastTrailFor selfId cycle =
        cycle.trail.take (cycle.trail.length - 3) from by
          simp [raycastTrailFor, hself]]
    rw [get?_take_eq_some]
    exact and_congr_left (fun _ => by omega)
  · simp [raycastTrailFor, hother]

/-- C6 witness: for a 3-segment trail, a point on the oldest segment is a
self-collision (the theorem's index-0 characterization applies), and another
agent's view of a self id mismatch leaves the trail whole. -/
theorem trail_skip_counts_witness :
    checkTrailCollision ⟨2, 0⟩
        [⟨⟨0, 0⟩, ⟨5, 0⟩, .east⟩, ⟨⟨5, 0⟩, ⟨5, 5⟩, .south⟩,
          ⟨⟨5, 5⟩, ⟨10, 5⟩, .east⟩] true = true ∧
      raycastTrailFor "a" (mkCycle "b" ⟨0, 0⟩ .north true
          [⟨⟨0, 0⟩, ⟨5, 0⟩, .east⟩]) = [⟨⟨0, 0⟩, ⟨5, 0⟩, .east⟩] := by
  constructor
  · exact (trail_skip_counts.1 ⟨2, 0⟩
      [⟨⟨0, 0⟩, ⟨5, 0⟩, .east⟩, ⟨⟨5, 0⟩, ⟨5, 5⟩, .south⟩,
        ⟨⟨5, 5⟩, ⟨10, 5⟩, .east⟩]).mpr
      ⟨0, ⟨⟨0, 0⟩, ⟨5, 0⟩, .east⟩, by simp, rfl, by with_unfolding_all decide⟩
  · exact (trail_skip_counts.2.2 "a"
      (mkCycle "b" ⟨0, 0⟩ .north true [⟨⟨0, 0⟩, ⟨5, 0⟩, .east⟩])).2
      (by with_unfolding_all decide)

theorem foldl_count {α : Type} (p : α → Prop) [DecidablePred p] :
    ∀ (l : List α) (n : ℕ),
      l.foldl (fun acc d => if p d then acc + 1 else acc) n =
        n + (l.filter (fun d => decide (p d))).length
  | [], n => by simp
  | x :: xs, n => by
    by_cases hx : p x
    · simp only [List.foldl_cons, List.filter_cons, hx, if_pos, decide_eq_true_eq]
      rw [foldl_count p xs (n + 1)]
      simp [hx]
      omega
    · simp only [List.foldl_cons, List.filter_cons, if_neg hx]
      rw [foldl_count p xs n]
      simp [hx]

/-- C7: every candidate score produced by `evaluateAllDirections` satisfies
`totalScore = 2·forwardDistance + 8·escapePaths + 1·selfTrailDanger`, where
`forwardDistance` is the raycast distance along the candidate direction with
max distance `2 × lookAheadDistance` (hence capped there), and `escapePaths`
counts, over the four cardinal raycasts from the point 8 units along the
candidate direction, those whose reported distance is at least 8. -/
theorem evaluateAllDirections_score_formula :
    ∀ (sq : ℚ → ℚ) (cycle : CycleState) (allCycles : List CycleState)
      (s : DirectionScore), s ∈ evaluateAllDirections sq cycle allCycles →
      s.totalScore = 2 * s.forwardDistance + 8 * (s.escapePaths : ℚ) +
          1 * s.selfTrailDanger ∧
        s.forwardDistance = (raycast cycle.gridPosition
            (DIRECTION_VECTORS s.direction) (2 * AI_CONFIG.lookAheadDistance)
            allCycles cycle.id).distance ∧
        s.escapePaths =
          ([GridDirection.north, .east, .south, .west].filter (fun d2 =>
            decide (8 ≤ (raycast
              ⟨cycle.gridPosition.x + (DIRECTION_VECTORS s.direction).x * 8,
                cycle.gridPosition.z + (DIRECTION_VECTORS s.direction).z * 8⟩
              (DIRECTION_VECTORS d2) 15 allCycles cycle.id).distance))).length := by
  intro sq cycle allCycles s hs
  simp only [evaluateAllDirections, List.mem_map] at hs
  obtain ⟨c, _, rfl⟩ := hs
  refine ⟨by dsimp only; ring, ?_, ?_⟩
  · dsimp only
    rw [show (2 : ℚ) * AI_CONFIG.lookAheadDistance =
      AI_CONFIG.lookAheadDistance * 2 by ring]
  · dsimp only
    rw [show countEscapePaths cycle c.1 allCycles =
      [GridDirection.north, .east, .south, .west].foldl (fun acc d =>
        if 8 ≤ (raycast
            ⟨cycle.gridPosition.x + (DIRECTION_VECTORS c.1).x * 8,
              cycle.gridPosition.z + (DIRECTION_VECTORS c.1).z * 8⟩
            (DIRECTION_VECTORS d) 15 allCycles cycle.id).distance
        then acc + 1 else acc) 0 from rfl]
    rw [foldl_count]
    simp

/-- C7 witness: for a single cycle near the east wall, the head of
`evaluateAllDirections` is a member of the list and its total score satisfies
the weighted formula. -/
theorem evaluateAllDirections_score_formula_witness :
    (let cyc := mkCycle "a" ⟨62, 0⟩ .east true []
     let scores := evaluateAllDirections (fun _ => 0) cyc [cyc]
     let s := scores.headD defaultDirectionScore
     s ∈ scores ∧
       s.totalScore = 2 * s.forwardDistance + 8 * (s.escapePaths : ℚ) +
         1 * s.selfTrailDanger) := by
  intro cyc scores s
  have hmem : s ∈ scores := by
    have h3 : scores.length = 3 := rfl
    have : s = scores.headD defaultDirectionScore := rfl
    rw [this]
    match hh : scores with
    | a :: rest => simp [List.headD]
    | [] => simp at h3
  exact ⟨hmem,
    (evaluateAllDirections_score_formula (fun _ => 0) cyc [cyc] s hmem).1⟩

/-- The C8 claim's formula, written from the spec's words: penalties
`-(10 - 2·dist)` for sample points at 5/10/15/20 units that come within 3
units of the agent's own older trail (all but the last 4 segments), plus a
flat `-5` per side whose 10-unit raycast hits the agent's OWN trail within 5
units (here the side raycast sees the agent alone, so only its own trail can
be hit). -/
def selfTrailDangerClaim (sq : ℚ → ℚ) (cycle : CycleState)
    (direction : GridDirection) : ℚ :=
  let vector := DIRECTION_VECTORS direction
  let oldTrail := cycle.trail.take (cycle.trail.length - 4)
  let pointPenalty := (([5, 10, 15, 20] : List ℚ).map (fun dist =>
    let checkPos : GridPosition :=
      ⟨cycle.gridPosition.x + vector.x * dist, cycle.gridPosition.z + vector.z * dist⟩
    (oldTrail.map (fun segment =>
      let d := distanceToSegment sq checkPos segment
      if d < 3 then -(10 - d * 2) else 0)).sum)).sum
  let sidePenalty := ([TURN_LEFT direction, TURN_RIGHT direction].map (fun sideDir =>
    let sideHit := raycast cycle.gridPosition (DIRECTION_VECTORS sideDir) 10
      [cycle] cycle.id
    if sideHit.distance < 5 ∧ sideHit.type = some HitType.trail then -(5 : ℚ)
    else 0)).sum
  pointPenalty + sidePenalty

/-- The amended C8 formula: identical to the claim's formula except that (a)
the side raycast runs against ALL living agents (so any agent's trail within 5
units on a side draws the `-5` penalty, not only the caster's own), and (b)
the whole danger is 0 when the agent's own trail has fewer than 3 segments. -/
def selfTrailDangerAmended (sq : ℚ → ℚ) (cycle : CycleState)
    (direction : GridDirection) (allCycles : List CycleState) : ℚ :=
  if cycle.trail.length < 3 then 0
  else
    let vector := DIRECTION_VECTORS direction
    let oldTrail := cycle.trail.take (cycle.trail.length - 4)
    let pointPenalty := (([5, 10, 15, 20] : List ℚ).map (fun dist =>
      let checkPos : GridPosition :=
        ⟨cycle.gridPosition.x + vector.x * dist, cycle.gridPosition.z + vector.z * dist⟩
      (oldTrail.map (fun segment =>
        let d := distanceToSegment sq checkPos segment
        if d < 3 then -(10 - d * 2) else 0)).sum)).sum
    let sidePenalty := ([TURN_LEFT direction, TURN_RIGHT direction].map (fun sideDir =>
      let sideHit := raycast cycle.gridPosition (DIRECTION_VECTORS sideDir) 10
        allCycles cycle.id
      if sideHit.distance < 5 ∧ sideHit.type = some HitType.trail then -(5 : ℚ)
      else 0)).sum
    pointPenalty + sidePenalty

theorem foldl_sub_penalty {α : Type} (cond : α → Prop) [DecidablePred cond]
    (g : α → ℚ) :
    ∀ (l : List α) (init : ℚ),
      l.foldl (fun danger x => if cond x then danger - g x else danger) init =
        init + (l.map (fun x => if cond x then -(g x) else 0)).sum
  | [], init => by simp
  | x :: xs, init => by
    by_cases hx : cond x
    · simp only [List.foldl_cons, List.map_cons, List.sum_cons, if_pos hx]
      rw [foldl_sub_penalty cond g xs (init - g x)]
      ring
    · simp only [List.foldl_cons, List.map_cons, List.sum_cons, if_neg hx]
      rw [foldl_sub_penalty cond g xs init]
      ring

theorem foldl_add_sum {α : Type} (f : α → ℚ) :
    ∀ (l : List α) (init : ℚ),
      l.foldl (fun acc x => acc + f x) init = init + (l.map f).sum
  | [], init => by simp
  | x :: xs, init => by
    simp only [List.foldl_cons, List.map_cons, List.sum_cons]
    rw [foldl_add_sum f xs (init + f x)]
    ring

/-- C8, counterexample: cycle `a` has a 3-segment trail far away in a corner
(so its own trail contributes nothing anywhere), while living cycle `b` has a
trail segment 2 units to `a`'s east.  The code's `evaluateSelfTrailDanger`
for heading north charges the flat side penalty `-5` for that OTHER agent's
trail, whereas the claim's formula (side penalty only for the agent's own
trail) yields 0. -/
theorem evaluateSelfTrailDanger_counts_other_trails :
    (let cA := mkCycle "a" ⟨0, 0⟩ .north true
        [⟨⟨-40, -40⟩, ⟨-38, -40⟩, .east⟩, ⟨⟨-40, -39⟩, ⟨-38, -39⟩, .east⟩,
          ⟨⟨-40, -38⟩, ⟨-38, -38⟩, .east⟩]
     let cB := mkCycle "b" ⟨30, 30⟩ .north true [⟨⟨2, -5⟩, ⟨2, 5⟩, .south⟩]
     evaluateSelfTrailDanger (fun _ => 0) cA .north [cA, cB] = -5 ∧
       selfTrailDangerClaim (fun _ => 0) cA .north = 0) := by
  intro cA cB
  exact ⟨by with_unfolding_all decide, by with_unfolding_all decide⟩

/-- C8, amended: `evaluateSelfTrailDanger` equals the amended formula on all
inputs — the sampled own-trail penalties are as the claim states, but the
flat `-5` side penalty is charged whenever the 10-unit side raycast reports
any trail hit within 5 units (any living agent's trail, with the caster's own
3 most recent segments excluded), and the whole danger is 0 for own trails
shorter than 3 segments. -/
theorem evaluateSelfTrailDanger_eq_amended :
    ∀ (sq : ℚ → ℚ) (cycle : CycleState) (direction : GridDirection)
      (allCycles : List CycleState),
      evaluateSelfTrailDanger sq cycle direction allCycles =
        selfTrailDangerAmended sq cycle direction allCycles := by
  intro sq cycle direction allCycles
  simp only [evaluateSelfTrailDanger, selfTrailDangerAmended]
  split
  · rfl
  · simp only [foldl_sub_penalty, foldl_add_sum, zero_add]

/-- No trail segment and no other agent's body lies at the sample point of the
raycast step-march at parameter `d` (the "clear lane" condition at one step). -/
def noHitAt (allCycles : List CycleState) (selfId : String)
    (position direction : GridPosition) (d : ℚ) : Bool :=
  let testPos : GridPosition :=
    ⟨position.x + direction.x * d, position.z + direction.z * d⟩
  allCycles.all (fun cycle =>
    !cycle.isAlive ||
      ((raycastTrailFor selfId cycle).all
          (fun segment => !pointIntersectsSegment testPos segment) &&
        (decide (cycle.id = selfId) ||
          !(decide ((testPos.x - cycle.gridPosition.x) *
              (testPos.x - cycle.gridPosition.x) +
              (testPos.z - cycle.gridPosition.z) *
                (testPos.z - cycle.gridPosition.z) <
              CYCLE_RADIUS * CYCLE_RADIUS * 4)))))

/-- The lane is clear: every sample point the raycast step-march can visit is
free of trail segments and other agents. -/
def clearLane (allCycles : List CycleState) (selfId : String)
    (position direction : GridPosition) (maxDistance : ℚ) : Bool :=
  (List.range ((⌈2 * maxDistance⌉).toNat + 1)).all (fun k =>
    noHitAt allCycles selfId position direction (((k : ℚ) + 1) / 2))

theorem foldl_no_update {α β : Type} (f : β → α → β) (l : List α) (acc : β)
    (h : ∀ x ∈ l, ∀ b, f b x = b) : l.foldl f acc = acc := by
  induction l generalizing acc with
  | nil => rfl
  | cons x xs ih =>
    rw [List.foldl_cons, h x (List.mem_cons_self x xs) acc]
    exact ih acc (fun y hy b => h y (List.mem_cons_of_mem x hy) b)

theorem raycastStep_of_noHit (allCycles : List CycleState) (selfId : String)
    (position direction : GridPosition) (d : ℚ)
    (h : noHitAt allCycles selfId position direction d = true)
    (acc : Option ℚ × Option HitType) :
    raycastStep allCycles selfId position direction d acc = acc := by
  simp only [noHitAt, List.all_eq_true] at h
  refine foldl_no_update _ _ _ (fun cycle hc b => ?_)
  have hcy := h cycle hc
  by_cases halive : cycle.isAlive
  · simp only [halive, Bool.not_true, Bool.false_or, Bool.and_eq_true,
      Bool.or_eq_true, List.all_eq_true] at hcy
    obtain ⟨htrail, hbody⟩ := hcy
    simp only [halive, Bool.not_true, Bool.false_eq_true, if_false]
    have hfold : (raycastTrailFor selfId cycle).foldl (fun acc segment =>
        if pointIntersectsSegment
            ⟨position.x + direction.x * d, position.z + direction.z * d⟩ segment
        then if ltInf d acc.1 then (some d, some HitType.trail) else acc
        else acc) b = b := by
      refine foldl_no_update _ _ _ (fun seg hseg b2 => ?_)
      have := htrail seg hseg
      simp only [Bool.not_eq_true'] at this
      simp [this]
    rw [hfold]
    rcases hbody with hid | hfar
    · simp only [decide_eq_true_eq] at hid
      simp [hid]
    · simp only [Bool.not_eq_true', decide_eq_false_iff_not] at hfar
      by_cases hid : cycle.id = selfId
      · simp [hid]
      · simp [hid, hfar]
  · simp only [Bool.not_eq_true] at halive
    simp [halive]

theorem raycastLoop_of_noHit (allCycles : List CycleState) (selfId : String)
    (position direction : GridPosition) (maxDistance : ℚ) :
    ∀ (fuel k : ℕ) (acc : Option ℚ × Option HitType),
      (∀ j : ℕ, k ≤ j → j < k + fuel →
        noHitAt allCycles selfId position direction ((j : ℚ) / 2) = true) →
      raycastLoop allCycles selfId position direction maxDistance fuel k acc = acc
  | 0, k, acc, _ => rfl
  | fuel + 1, k, acc, h => by
    simp only [raycastLoop]
    split
    · rw [raycastStep_of_noHit allCycles selfId position direction _
        (h k le_rfl (by omega)) acc]
      exact raycastLoop_of_noHit allCycles selfId position direction maxDistance
        fuel (k + 1) acc (fun j hj hj2 => h j (by omega) (by omega))
    · rfl

/-- C5: along any cardinal unit direction, if the lane is clear (no trail
segment or other agent at any sample point of the step-march), `raycast`
returns a finite distance equal to `min` of the analytic inset-wall distance
and the requested `maxDistance`, reporting the wall as the hit kind — in
particular a short `maxDistance` with a farther wall returns exactly
`maxDistance`, never `Infinity`. -/
theorem raycast_clear_lane :
    ∀ (position : GridPosition) (d4 : GridDirection) (maxDistance : ℚ)
      (allCycles : List CycleState) (selfId : String),
      clearLane allCycles selfId position (DIRECTION_VECTORS d4) maxDistance = true →
      ∃ w : ℚ, raycastWall position (DIRECTION_VECTORS d4) = some w ∧
        raycast position (DIRECTION_VECTORS d4) maxDistance allCycles selfId =
          { distance := min w maxDistance, type := some HitType.wall } := by
  intro position d4 maxDistance allCycles selfId hclear
  have hwall : ∃ w : ℚ, raycastWall position (DIRECTION_VECTORS d4) = some w := by
    cases d4
    case north =>
      refine ⟨(-ARENA_HALF + CYCLE_RADIUS - position.z) / (-1), ?_⟩
      norm_num [raycastWall, DIRECTION_VECTORS, minInf]
    case east =>
      refine ⟨(ARENA_HALF - CYCLE_RADIUS - position.x) / 1, ?_⟩
      norm_num [raycastWall, DIRECTION_VECTORS, minInf]
    case south =>
      refine ⟨(ARENA_HALF - CYCLE_RADIUS - position.z) / 1, ?_⟩
      norm_num [raycastWall, DIRECTION_VECTORS, minInf]
    case west =>
      refine ⟨(-ARENA_HALF + CYCLE_RADIUS - position.x) / (-1), ?_⟩
      norm_num [raycastWall, DIRECTION_VECTORS, minInf]
  obtain ⟨w, hw⟩ := hwall
  refine ⟨w, hw, ?_⟩
  simp only [clearLane, List.all_eq_true] at hclear
  have hforall : ∀ j : ℕ, 1 ≤ j → j < 1 + ((⌈2 * maxDistance⌉).toNat + 1) →
      noHitAt allCycles selfId position (DIRECTION_VECTORS d4) ((j : ℚ) / 2) = true := by
    intro j hj1 hj2
    have hc := hclear (j - 1) (List.mem_range.2 (by omega))
    have hcast : ((j - 1 : ℕ) : ℚ) + 1 = (j : ℚ) := by
      rw [Nat.cast_sub hj1]
      ring
    rw [hcast] at hc
    exact hc
  simp only [raycast, hw]
  rw [raycastLoop_of_noHit allCycles selfId position (DIRECTION_VECTORS d4)
    maxDistance ((⌈2 * maxDistance⌉).toNat + 1) 1
    (some w, some HitType.wall) hforall]
  simp only [minInf]

/-- C5 witness: a lone cycle at the origin raycasting north with `maxDistance`
5 (wall 63.6 away) gets back exactly 5, with the wall as the reported kind. -/
theorem raycast_clear_lane_witness :
    raycast ⟨0, 0⟩ (DIRECTION_VECTORS .north) 5
        [mkCycle "a" ⟨0, 0⟩ .north true []] "a" =
      { distance := 5, type := some HitType.wall } := by
  obtain ⟨w, hw, hr⟩ := raycast_clear_lane ⟨0, 0⟩ .north 5
    [mkCycle "a" ⟨0, 0⟩ .north true []] "a" (by with_unfolding_all decide)
  have hcomp : raycastWall ⟨0, 0⟩ (DIRECTION_VECTORS .north) = some (318 / 5) := by
    with_unfolding_all decide
  rw [hcomp] at hw
  have hww : w = 318 / 5 := by
    injection hw.symm
  rw [hr, hww]
  have : min ((318 : ℚ) / 5) 5 = 5 := by norm_num
  rw [this]

/-- The free inputs of one `getDecision` invocation (oracles included), for
reasoning about arbitrary sequences of calls against the shared
per-agent last-decision map. -/
structure CallArgs where
  sq : ℚ → ℚ
  rEmergency : ℚ
  rDesperate : ℚ
  rStrategic : ℚ
  perfNow : ℚ
  cycle : CycleState
  allCycles : List CycleState
  currentTime : ℚ

/-- Thread the last-decision map through a sequence of `getDecision` calls. -/
def runCalls (calls : List CallArgs) (m : String → ℚ) : String → ℚ :=
  calls.foldl (fun m c =>
    (getDecision c.sq c.rEmergency c.rDesperate c.rStrategic c.perfNow
      c.cycle c.allCycles c.currentTime m).2) m

theorem getDecision_cases (sq : ℚ → ℚ) (rE rD rS pN : ℚ) (cycle : CycleState)
    (allCycles : List CycleState) (t : ℚ) (m : String → ℚ) :
    ((getDecision sq rE rD rS pN cycle allCycles t m).1 =
        ⟨Turn.none, 0, false⟩ ∧
      (getDecision sq rE rD rS pN cycle allCycles t m).2 = m) ∨
      ((getDecision sq rE rD rS pN cycle allCycles t m).2 =
          (fun id => if id = cycle.id then t else m id) ∧
        AI_CONFIG.decisionInterval ≤ t - m cycle.id) := by
  by_cases h : t - m cycle.id < AI_CONFIG.decisionInterval
  · left
    simp [getDecision, h]
  · have h60 := not_lt.1 h
    simp only [getDecision, if_neg h]
    repeat' split
    all_goals first
      | exact Or.inl ⟨rfl, rfl⟩
      | exact Or.inr ⟨rfl, h60⟩

theorem getDecision_commit (sq : ℚ → ℚ) (rE rD rS pN : ℚ) (cycle : CycleState)
    (allCycles : List CycleState) (t : ℚ) (m : String → ℚ) :
    ((getDecision sq rE rD rS pN cycle allCycles t m).1.turn ≠ Turn.none ∨
      (getDecision sq rE rD rS pN cycle allCycles t m).1.jump = true) →
    (getDecision sq rE rD rS pN cycle allCycles t m).2 cycle.id = t := by
  intro hcommit
  rcases getDecision_cases sq rE rD rS pN cycle allCycles t m with
    ⟨hdec, _⟩ | ⟨heq, _⟩
  · exfalso
    rw [hdec] at hcommit
    simp at hcommit
  · rw [heq]
    simp

theorem getDecision_mono (sq : ℚ → ℚ) (rE rD rS pN : ℚ) (cycle : CycleState)
    (allCycles : List CycleState) (t : ℚ) (m : String → ℚ) (id : String) :
    m id ≤ (getDecision sq rE rD rS pN cycle allCycles t m).2 id := by
  rcases getDecision_cases sq rE rD rS pN cycle allCycles t m with
    ⟨_, heq⟩ | ⟨heq, h60⟩
  · rw [heq]
  · rw [heq]
    by_cases hid : id = cycle.id
    · show m id ≤ if id = cycle.id then t else m id
      rw [if_pos hid, hid]
      have hpos : (0 : ℚ) ≤ AI_CONFIG.decisionInterval := by
        norm_num [AI_CONFIG]
      linarith
    · show m id ≤ if id = cycle.id then t else m id
      rw [if_neg hid]

theorem runCalls_mono (calls : List CallArgs) (m : String → ℚ) (id : String) :
    m id ≤ runCalls calls m id := by
  induction calls generalizing m with
  | nil => exact le_refl _
  | cons c cs ih =>
    exact le_trans
      (getDecision_mono c.sq c.rEmergency c.rDesperate c.rStrategic c.perfNow
        c.cycle c.allCycles c.currentTime m id)
      (ih _)

theorem getDecision_throttled (sq : ℚ → ℚ) (rE rD rS pN : ℚ)
    (cycle : CycleState) (allCycles : List CycleState) (t : ℚ) (m : String → ℚ)
    (h : t - m cycle.id < AI_CONFIG.decisionInterval) :
    (getDecision sq rE rD rS pN cycle allCycles t m).1 =
      ⟨Turn.none, 0, false⟩ := by
  simp [getDecision, h]

/-- C9: once `getDecision` commits a decision at time `t` for an agent (its
map records `t` and it returns a turn or a jump), every later call for the
same agent id at any time `t2` with `t2 - t` strictly below
`decisionInterval` — across any interleaved sequence of further calls —
returns turn `none`, urgency 0 and jump `false`. -/
theorem getDecision_rate_limit :
    ∀ (sq : ℚ → ℚ) (rE rD rS pN : ℚ) (cycle : CycleState)
      (allCycles : List CycleState) (t : ℚ) (m : String → ℚ)
      (calls : List CallArgs) (sq2 : ℚ → ℚ) (rE2 rD2 rS2 pN2 : ℚ)
      (cycle2 : CycleState) (allCycles2 : List CycleState) (t2 : ℚ),
      cycle2.id = cycle.id →
      ((getDecision sq rE rD rS pN cycle allCycles t m).1.turn ≠ Turn.none ∨
        (getDecision sq rE rD rS pN cycle allCycles t m).1.jump = true) →
      t2 - t < AI_CONFIG.decisionInterval →
      (getDecision sq2 rE2 rD2 rS2 pN2 cycle2 allCycles2 t2
          (runCalls calls
            (getDecision sq rE rD rS pN cycle allCycles t m).2)).1 =
        ⟨Turn.none, 0, false⟩ := by
  intro sq rE rD rS pN cycle allCycles t m calls sq2 rE2 rD2 rS2 pN2 cycle2
    allCycles2 t2 hid hcommit ht
  have hset : (getDecision sq rE rD rS pN cycle allCycles t m).2 cycle.id = t :=
    getDecision_commit sq rE rD rS pN cycle allCycles t m hcommit
  have hmono := runCalls_mono calls
    (getDecision sq rE rD rS pN cycle allCycles t m).2 cycle.id
  rw [hset] at hmono
  refine getDecision_throttled sq2 rE2 rD2 rS2 pN2 cycle2 allCycles2 t2 _ ?_
  rw [hid]
  linarith

/-- A cycle 1.6 units from the east wall, facing east: its forward raycast is
under `minTurnDistance`, forcing a committed decision. -/
def c9cyc : CycleState := mkCycle "a" ⟨62, 0⟩ GridDirection.east true []

set_option maxHeartbeats 4000000 in
/-- C9 witness: the wall-facing cycle commits a turn at time 1000; a second
call 30 ms later (under the 60 ms interval), with no intervening calls,
returns turn `none`, urgency 0, no jump. -/
theorem getDecision_rate_limit_witness :
    ((getDecision (fun _ => 0) (9 / 10) (9 / 10) (9 / 10) 5000 c9cyc [c9cyc]
        1000 (fun _ => 0)).1.turn ≠ Turn.none ∨
      (getDecision (fun _ => 0) (9 / 10) (9 / 10) (9 / 10) 5000 c9cyc [c9cyc]
        1000 (fun _ => 0)).1.jump = true) ∧
      (getDecision (fun _ => 0) (9 / 10) (9 / 10) (9 / 10) 5000 c9cyc [c9cyc]
          1030 (runCalls []
            (getDecision (fun _ => 0) (9 / 10) (9 / 10) (9 / 10) 5000 c9cyc
              [c9cyc] 1000 (fun _ => 0)).2)).1 = ⟨Turn.none, 0, false⟩ := by
  have hturn : (getDecision (fun _ => 0) (9 / 10) (9 / 10) (9 / 10) 5000 c9cyc
      [c9cyc] 1000 (fun _ => 0)).1.turn ≠ Turn.none := by
    with_unfolding_all decide
  exact ⟨Or.inl hturn,
    getDecision_rate_limit (fun _ => 0) (9 / 10) (9 / 10) (9 / 10) 5000 c9cyc
      [c9cyc] 1000 (fun _ => 0) [] (fun _ => 0) (9 / 10) (9 / 10) (9 / 10) 5000
      c9cyc [c9cyc] 1030 rfl (Or.inl hturn) (by norm_num [AI_CONFIG])⟩

/-- C10: on each of the four cardinal headings, the direction-vector form of
movement (`moveForward`) and the continuous-angle form (`moveForwardAngle` at
`DIRECTION_TO_ANGLE`) produce the same position, over exact real
arithmetic. -/
theorem moveForward_eq_moveForwardAngle :
    ∀ (p : RealPosition) (d : GridDirection) (t : ℝ),
      moveForward p d t = moveForwardAngle p (DIRECTION_TO_ANGLE d) t := by
  intro p d t
  cases d <;>
    (simp [moveForward, moveForwardAngle, DIRECTION_TO_ANGLE, DIRECTION_VECTORS_R,
        Real.sin_pi_div_two, Real.cos_pi_div_two, Real.sin_pi, Real.cos_pi,
        Real.sin_neg, Real.cos_neg]
     try ring_nf)

end Lightcycle
